import Mathlib

/-!
Verification of the GISTI-redesign scraper and content injector.

The Python sources (`scrape-gisti.py`, `inject-content.py`, `inject-v2.py`)
are shallowly embedded below.  Python strings are modelled as `List Char`;
the file system, the HTTP layer and the wall clock are explicit parameters;
`re.sub` over an anchor pattern of the form `(start)(.*?)(end)` with DOTALL
is modelled as literal-marker surgery (`injectAnchor`): the start/end groups
are preserved via backreferences in the source, so for a fixed document the
matched marker text is a literal string, which the model takes as the
marker parameter.
-/

/-! ### Text primitives (`clean_text` / `clean`, `html.escape`) -/

/-- Python `\s` for the ASCII whitespace characters that occur in this data. -/
def isPySpace (c : Char) : Bool :=
  c = ' ' || c = '\t' || c = '\n' || c = '\r' || c = '\x0b' || c = '\x0c'

/-- One pass of `re.sub(r'\s+', ' ', text)`: every maximal run of whitespace
becomes a single space.  The boolean records whether the previous character
belonged to a whitespace run. -/
def collapseWsAux : Bool → List Char → List Char
  | _, [] => []
  | prevWs, c :: rest =>
    if isPySpace c then
      if prevWs then collapseWsAux true rest
      else ' ' :: collapseWsAux true rest
    else c :: collapseWsAux false rest

/-- Python `str.strip()`. -/
def stripWs (l : List Char) : List Char :=
  ((l.dropWhile isPySpace).reverse.dropWhile isPySpace).reverse

/-- Model of `clean_text` in `scrape-gisti.py` and `clean` in the injectors:
collapse whitespace runs to one space, then strip both ends. -/
def cleanText (l : List Char) : List Char :=
  stripWs (collapseWsAux false l)

/-- Image of one character under `html.escape` (default `quote=True`). -/
def escChar (c : Char) : List Char :=
  if c = '&' then ['&', 'a', 'm', 'p', ';']
  else if c = '<' then ['&', 'l', 't', ';']
  else if c = '>' then ['&', 'g', 't', ';']
  else if c = '"' then ['&', 'q', 'u', 'o', 't', ';']
  else if c = '\'' then ['&', '#', 'x', '2', '7', ';']
  else [c]

/-- Model of `html.escape(s)`: the sequential `str.replace` calls of the
library function act on disjoint characters, so they equal this character
map. -/
def escapeHtml : List Char → List Char
  | [] => []
  | c :: rest => escChar c ++ escapeHtml rest

/-- No raw `<` or `>` character occurs in the text. -/
def ltgtFree (l : List Char) : Bool :=
  l.all (fun c => c != '<' && c != '>')

/-- The tails of the five entities `html.escape` can produce. -/
def entityTails : List (List Char) :=
  [['a', 'm', 'p', ';'], ['l', 't', ';'], ['g', 't', ';'],
   ['q', 'u', 'o', 't', ';'], ['#', 'x', '2', '7', ';']]

/-- Every `&` in the text starts one of the five escape entities. -/
def ampOk : List Char → Bool
  | [] => true
  | c :: rest =>
    (if c = '&' then entityTails.any (fun e => e.isPrefixOf rest) else true)
      && ampOk rest

/-- Python `str.split()` on cleaned text: split on spaces, drop empties. -/
def pySplitWs (l : List Char) : List (List Char) :=
  (l.splitOn ' ').filter (fun w => w ≠ [])

/-- Python `sep.join(parts)`. -/
def joinSep (sep : List Char) : List (List Char) → List Char
  | [] => []
  | x :: xs =>
    match xs with
    | [] => x
    | _ :: _ => x ++ sep ++ joinSep sep xs

/-! ### Literal-marker anchor surgery (`re.sub` with `(start)(.*?)(end)`) -/

/-- Split `s` at the first occurrence of `pat`:
`some (pre, post)` with `s = pre ++ pat ++ post` and `pre` shortest. -/
def findSplit (pat : List Char) : List Char → Option (List Char × List Char)
  | [] => if pat.isEmpty then some ([], []) else none
  | c :: rest =>
    if pat.isPrefixOf (c :: rest) then some ([], (c :: rest).drop pat.length)
    else
      match findSplit pat rest with
      | some (pre, post) => some (c :: pre, post)
      | none => none

/-- Whether `pat` occurs somewhere in `s`. -/
def occursIn (pat s : List Char) : Bool :=
  (findSplit pat s).isSome

/-- The anchor pattern `(S)(.*?)(E)` matches the document: `S` occurs, and
`E` occurs after the first `S`. -/
def anchorMatches (S E doc : List Char) : Bool :=
  match findSplit S doc with
  | none => false
  | some (_, rest) => (findSplit E rest).isSome

/-- Fueled worker for `re.sub(r'(S)(.*?)(E)', replacement, doc, re.DOTALL)`:
scan left to right, replace each non-overlapping match of
start-marker / shortest interior / end-marker by
start-marker / block / end-marker, and resume after the match.  The fuel is
only a termination device; `doc.length + 1` suffices for nonempty markers. -/
def injectAux (S E block : List Char) : Nat → List Char → List Char
  | 0, s => s
  | fuel + 1, s =>
    match findSplit S s with
    | none => s
    | some (pre, rest1) =>
      match findSplit E rest1 with
      | none => s
      | some (_, post) =>
        pre ++ S ++ block ++ E ++ injectAux S E block fuel post

/-- The anchor substitution used by every injector call site. -/
def injectAnchor (S E block doc : List Char) : List Char :=
  injectAux S E block (doc.length + 1) doc

/-! ### `fetch` of `scrape-gisti.py` (cache + rate limit) -/

/-- Configuration constant: 2 seconds between requests. -/
def RATE_LIMIT : ℚ := 2

/-- The mutable context of `fetch`: the on-disk cache keyed by URL (the md5
file naming is injective on the URLs in use), the module-level
`last_request_time`, and the current value of `time.time()`. -/
structure FetchState where
  cache : String → Option (List Char)
  lastRequestTime : ℚ
  now : ℚ

/-- What one `fetch(url)` call returns and observably does:
the text (or `none` on a request error), the start time of the outbound
network call when one is issued, the time slept for rate limiting, and the
state afterwards. -/
structure FetchResult where
  text? : Option (List Char)
  callStart? : Option ℚ
  sleptFor : ℚ
  state : FetchState

/-- Model of `fetch(url)`: cache hit returns immediately; on a miss, sleep out the
rest of the rate-limit window, issue the GET (modelled by `net`; `dur` is
how long the request takes), and on success update
`last_request_time`, write the cache and return the body.  On a request
exception the function logs and returns `None`; `last_request_time` is not
updated on that path (the assignment sits after `raise_for_status`). -/
def fetch (net : String → Option (List Char)) (dur : ℚ)
    (st : FetchState) (url : String) : FetchResult :=
  match st.cache url with
  | some txt => { text? := some txt, callStart? := none, sleptFor := 0, state := st }
  | none =>
    let elapsed := st.now - st.lastRequestTime
    let slp := if elapsed < RATE_LIMIT then RATE_LIMIT - elapsed else 0
    let t1 := st.now + slp
    match net url with
    | some body =>
      { text? := some body, callStart? := some t1, sleptFor := slp,
        state := { cache := fun u => if u = url then some body else st.cache u,
                   lastRequestTime := t1 + dur, now := t1 + dur } }
    | none =>
      { text? := none, callStart? := some t1, sleptFor := slp,
        state := { cache := st.cache, lastRequestTime := st.lastRequestTime,
                   now := t1 + dur } }

/-- Run a sequence of `fetch` calls.  Each element `(δ, dur, url)` lets `δ`
seconds of caller time pass, then calls `fetch url` with request duration
`dur`.  Returns the final state and the start times of the outbound
network calls that were issued. -/
def runFetches (net : String → Option (List Char)) :
    List (ℚ × ℚ × String) → FetchState → FetchState × List ℚ
  | [], st => (st, [])
  | (δ, dur, url) :: rest, st =>
    let r := fetch net dur { st with now := st.now + δ } url
    let p := runFetches net rest r.state
    (p.1, r.callStart?.toList ++ p.2)

/-! ### Field extraction (`scrape_single_article`) -/

/-- The ordered locator list for the article title. -/
def titleSelectors : List String :=
  ["h1.titre", ".titre-article", "h1.entry-title", "#contenu h1", "h1"]

/-- The extraction loop of `scrape_single_article`: the document maps each
selector to the text of the element `select_one` finds (`none` when it
finds nothing).  The loop takes the FIRST selector that locates an element,
cleans its text and breaks — even when that cleaned text is empty; when no
selector locates anything the field stays `""`. -/
def tryLocators (doc : String → Option (List Char)) : List String → List Char
  | [] => []
  | sel :: rest =>
    match doc sel with
    | some t => cleanText t
    | none => tryLocators doc rest

/-! ### Deduplication (`scrape_articles`, lines 173-178) -/

/-- The fields of a raw scraped item that the dedup loop can observe;
`unique` keys on `url` only, the rest rides along unchanged. -/
structure RawArticle where
  url : List Char
  title : List Char
deriving DecidableEq

/-- The loop body: `unique` is an insertion-ordered dict, modelled as an
association list; an item is inserted only when its URL is not yet a key. -/
def dedupAux : List (List Char × RawArticle) → List RawArticle → List (List Char × RawArticle)
  | acc, [] => acc
  | acc, a :: rest =>
    if acc.any (fun kv => kv.1 == a.url) then dedupAux acc rest
    else dedupAux (acc ++ [(a.url, a)]) rest

/-- Dedup pass of `scrape_articles`: run the loop on an empty dict and
return the dict's values in insertion order. -/
def dedupByUrl (items : List RawArticle) : List RawArticle :=
  (dedupAux [] items).map Prod.snd

/-- Specification-side dedup, written from the spec's words: keep the first
occurrence of each URL, discard later ones, preserve order. -/
def keepFirstByUrl : List RawArticle → List RawArticle
  | [] => []
  | a :: rest => a :: keepFirstByUrl (rest.filter (fun b => b.url != a.url))
termination_by l => l.length
decreasing_by
  simp only [List.length_cons]
  exact Nat.lt_succ_of_le (List.length_filter_le _ _)

/-! ### Records consumed by the injectors (JSON objects, keys optional) -/

/-- Article record as read from `articles/all.json`; every key is accessed
through `dict.get` with a default, so each field is optional. -/
structure CardRecord where
  url : Option (List Char)
  title : Option (List Char)
  date : Option (List Char)
  rubrique : Option (List Char)
  body_text : Option (List Char)
  keywords : Option (List (List Char))
deriving DecidableEq

/-- Formation record as read from `formations/all.json`. -/
structure FormationRecord where
  title : Option (List Char)
  date : Option (List Char)
  price : Option (List Char)
  duration : Option (List Char)
  description : Option (List Char)
  format : Option (List Char)
deriving DecidableEq

/-- Publication record as read from `publications/all.json`; `ptype` models
the JSON key `type`. -/
structure PubRecord where
  title : Option (List Char)
  ptype : Option (List Char)
deriving DecidableEq

/-! ### `make_card_html` -/

/-- Local `title` of `make_card_html`. -/
def cardTitlePiece (a : CardRecord) : List Char :=
  escapeHtml (cleanText (a.title.getD ("Sans titre".toList)))

/-- Local `date` of `make_card_html`. -/
def cardDatePiece (a : CardRecord) : List Char :=
  escapeHtml (cleanText (a.date.getD []))

/-- Local `body` of `make_card_html`: clean, hard-cut at 180 characters,
then escape. -/
def cardBodyPiece (a : CardRecord) : List Char :=
  escapeHtml ((cleanText (a.body_text.getD [])).take 180)

/-- Local `rubrique` of `make_card_html`. -/
def cardRubriquePiece (a : CardRecord) : List Char :=
  escapeHtml (cleanText (a.rubrique.getD []))

/-- Local `url` of `make_card_html`: computed but never interpolated into
the fragment (the link target is the literal `article.html`). -/
def cardUrlPiece (a : CardRecord) : List Char :=
  escapeHtml (a.url.getD ("article.html".toList))

/-- Local `date_html` of `make_card_html`. -/
def cardDateHtml (a : CardRecord) : List Char :=
  if cardDatePiece a = [] then []
  else "<time>".toList ++ cardDatePiece a ++ "</time>".toList

/-- Local `rubrique_html` of `make_card_html`. -/
def cardRubriqueHtml (a : CardRecord) : List Char :=
  if cardRubriquePiece a = [] then []
  else "<span>&middot;</span><span>".toList ++ cardRubriquePiece a ++ "</span>".toList

/-- Template text of the card fragment before the title. -/
def cardTpl1 : List Char :=
  ("          <article class=\"card\">\n            <div class=\"card__body\">\n              <span class=\"card__overline\">Article</span>\n              <h3 class=\"card__title\">\n                <a href=\"article.html\">").toList

/-- Template text between title and body. -/
def cardTpl2 : List Char :=
  ("</a>\n              </h3>\n              <p class=\"card__text\">").toList

/-- Template text between body and date. -/
def cardTpl3 : List Char :=
  ("</p>\n              <div class=\"card__meta\">\n                ").toList

/-- Template text between date and rubrique. -/
def cardTpl4 : List Char := ("\n                ").toList

/-- Template text after the rubrique. -/
def cardTpl5 : List Char :=
  ("\n              </div>\n            </div>\n          </article>").toList

/-- Model of `make_card_html(article, index=0)`; the `index` parameter of the
source is never used in the body and is omitted. -/
def makeCardHtml (a : CardRecord) : List Char :=
  cardTpl1 ++ cardTitlePiece a ++ cardTpl2 ++ cardBodyPiece a ++ cardTpl3
    ++ cardDateHtml a ++ cardTpl4 ++ cardRubriqueHtml a ++ cardTpl5

/-! ### `make_formation_mini_html` -/

/-- Local `title` of `make_formation_mini_html`. -/
def miniTitlePiece (f : FormationRecord) : List Char :=
  escapeHtml (cleanText (f.title.getD []))

/-- Local `date` of `make_formation_mini_html` (cleaned, not escaped). -/
def miniDateClean (f : FormationRecord) : List Char :=
  cleanText (f.date.getD [])

/-- Local `day`: first whitespace-separated token of the date when it has
at least two tokens, else empty. -/
def miniDayRaw (f : FormationRecord) : List Char :=
  if miniDateClean f = [] then []
  else
    let parts := pySplitWs (miniDateClean f)
    if 2 ≤ parts.length then parts.headD [] else []

/-- Local `month`: first four characters of the second token plus a dot. -/
def miniMonthRaw (f : FormationRecord) : List Char :=
  if miniDateClean f = [] then []
  else
    let parts := pySplitWs (miniDateClean f)
    if 2 ≤ parts.length then (parts.getD 1 []).take 4 ++ ['.'] else []

/-- Local `price` of `make_formation_mini_html`. -/
def miniPricePiece (f : FormationRecord) : List Char :=
  escapeHtml (cleanText (f.price.getD []))

/-- Local `duration` of `make_formation_mini_html`. -/
def miniDurationPiece (f : FormationRecord) : List Char :=
  escapeHtml (cleanText (f.duration.getD []))

/-- Local `meta_parts`. -/
def miniMetaParts (f : FormationRecord) : List (List Char) :=
  (if miniDurationPiece f = [] then [] else [miniDurationPiece f])
    ++ ["Paris".toList]
    ++ (if miniPricePiece f = [] then [] else [miniPricePiece f])

/-- Local `meta_str`. -/
def miniMetaStr (f : FormationRecord) : List Char :=
  joinSep (" &middot; ".toList) (miniMetaParts f)

/-- The interpolated day: escaped day, or the placeholder question mark. -/
def miniDayPiece (f : FormationRecord) : List Char :=
  if miniDayRaw f = [] then ['?'] else escapeHtml (miniDayRaw f)

/-- The interpolated month: escaped month, or empty. -/
def miniMonthPiece (f : FormationRecord) : List Char :=
  if miniMonthRaw f = [] then [] else escapeHtml (miniMonthRaw f)

/-- Template text of the mini card before the day. -/
def miniTpl1 : List Char :=
  ("              <div class=\"formation-mini\">\n                <div class=\"formation-mini__date\">\n                  <span class=\"formation-mini__date-day\">").toList

/-- Template text between day and month. -/
def miniTpl2 : List Char :=
  ("</span>\n                  <span class=\"formation-mini__date-month\">").toList

/-- Template text between month and title. -/
def miniTpl3 : List Char :=
  ("</span>\n                </div>\n                <div>\n                  <p class=\"formation-mini__title\">").toList

/-- Template text between title and meta line. -/
def miniTpl4 : List Char :=
  ("</p>\n                  <p class=\"formation-mini__meta\">").toList

/-- Template text after the meta line. -/
def miniTpl5 : List Char :=
  ("</p>\n                </div>\n              </div>").toList

/-- Model of `make_formation_mini_html(formation)`. -/
def makeFormationMiniHtml (f : FormationRecord) : List Char :=
  miniTpl1 ++ miniDayPiece f ++ miniTpl2 ++ miniMonthPiece f ++ miniTpl3
    ++ miniTitlePiece f ++ miniTpl4 ++ miniMetaStr f ++ miniTpl5

/-! ### `make_pub_card_html` -/

/-- Local `title` of `make_pub_card_html` (escaped in full; the cover
placeholder truncates this escaped string afterwards). -/
def pubTitlePiece (p : PubRecord) : List Char :=
  escapeHtml (cleanText (p.title.getD []))

/-- Local `pub_type` of `make_pub_card_html`. -/
def pubTypePiece (p : PubRecord) : List Char :=
  escapeHtml (cleanText (p.ptype.getD ("Publication".toList)))

/-- Interpolation `pub_type.lower().replace(' ', '-')`; Python lowercasing
is modelled by the ASCII `Char.toLower` (the type strings in use are
ASCII). -/
def pubDataTypePiece (p : PubRecord) : List Char :=
  ((pubTypePiece p).map Char.toLower).map (fun c => if c = ' ' then '-' else c)

/-- Interpolation `title[:30]`: the escaped title hard-cut at 30
characters. -/
def pubCoverPiece (p : PubRecord) : List Char :=
  (pubTitlePiece p).take 30

/-- Template text of the publication card before the data-type attribute. -/
def pubTpl1 : List Char :=
  ("          <a href=\"publication-detail.html\" class=\"pub-card\" data-filter-item data-type=\"").toList

/-- Template text between data-type and cover placeholder. -/
def pubTpl2 : List Char :=
  ("\">\n            <div class=\"pub-card__cover-placeholder\">").toList

/-- Template text between cover placeholder and type span. -/
def pubTpl3 : List Char :=
  ("</div>\n            <div class=\"pub-card__body\">\n              <span class=\"pub-card__type\">").toList

/-- Template text between type span and title. -/
def pubTpl4 : List Char :=
  ("</span>\n              <h3 class=\"pub-card__title\">").toList

/-- Template text after the title. -/
def pubTpl5 : List Char :=
  ("</h3>\n            </div>\n          </a>").toList

/-- Model of `make_pub_card_html(pub)`. -/
def makePubCardHtml (p : PubRecord) : List Char :=
  pubTpl1 ++ pubDataTypePiece p ++ pubTpl2 ++ pubCoverPiece p ++ pubTpl3
    ++ pubTypePiece p ++ pubTpl4 ++ pubTitlePiece p ++ pubTpl5

/-! ### `make_formation_card_html` -/

/-- Local `title` of `make_formation_card_html`. -/
def fcTitlePiece (f : FormationRecord) : List Char :=
  escapeHtml (cleanText (f.title.getD []))

/-- Local `desc`: clean, hard-cut at 200 characters, then escape. -/
def fcDescPiece (f : FormationRecord) : List Char :=
  escapeHtml ((cleanText (f.description.getD [])).take 200)

/-- Local `fmt` (raw, neither cleaned nor escaped in the source). -/
def fcFormatRaw (f : FormationRecord) : List Char :=
  f.format.getD ("presentiel".toList)

/-- Local `price` of `make_formation_card_html`. -/
def fcPricePiece (f : FormationRecord) : List Char :=
  escapeHtml (cleanText (f.price.getD []))

/-- Local `duration` of `make_formation_card_html`. -/
def fcDurationPiece (f : FormationRecord) : List Char :=
  escapeHtml (cleanText (f.duration.getD []))

/-- Local `date` of `make_formation_card_html`. -/
def fcDatePiece (f : FormationRecord) : List Char :=
  escapeHtml (cleanText (f.date.getD []))

/-- Local `fmt_label`: dictionary lookup with default. -/
def fcLabel (f : FormationRecord) : List Char :=
  if fcFormatRaw f = ("presentiel".toList) then "Présentiel".toList
  else if fcFormatRaw f = ("distanciel".toList) then "Distanciel".toList
  else if fcFormatRaw f = ("webinaire".toList) then "Webinaire".toList
  else "Présentiel".toList

/-- Local `fmt_class`. -/
def fcClass (f : FormationRecord) : List Char :=
  ("formation-card__format--").toList ++ fcFormatRaw f

/-- Local `details`: the optional duration/date/price spans. -/
def fcDetails (f : FormationRecord) : List (List Char) :=
  (if fcDurationPiece f = [] then []
   else [("<span class=\"formation-card__detail\">").toList ++ fcDurationPiece f ++ ("</span>").toList])
  ++ (if fcDatePiece f = [] then []
      else [("<span class=\"formation-card__detail\">").toList ++ fcDatePiece f ++ ("</span>").toList])
  ++ (if fcPricePiece f = [] then []
      else [("<span class=\"formation-card__detail formation-card__price\">").toList ++ fcPricePiece f ++ ("</span>").toList])

/-- Template text of the formation card before the title. -/
def fcTpl1 : List Char :=
  ("          <div class=\"formation-card\" data-filter-item>\n            <div class=\"formation-card__header\">\n              <h3 class=\"formation-card__title\">").toList

/-- Template text between title and format class. -/
def fcTpl2 : List Char :=
  ("</h3>\n              <span class=\"formation-card__format ").toList

/-- Template text between format class and label. -/
def fcTpl3 : List Char := ("\">").toList

/-- Template text between label and description. -/
def fcTpl4 : List Char :=
  ("</span>\n            </div>\n            <p class=\"formation-card__desc\">").toList

/-- Template text between description and details. -/
def fcTpl5 : List Char :=
  ("</p>\n            <div class=\"formation-card__details\">\n              ").toList

/-- Template text after the details. -/
def fcTpl6 : List Char :=
  ("\n              <span class=\"formation-card__places\">Places disponibles</span>\n            </div>\n          </div>").toList

/-- Model of `make_formation_card_html(formation)`. -/
def makeFormationCardHtml (f : FormationRecord) : List Char :=
  fcTpl1 ++ fcTitlePiece f ++ fcTpl2 ++ fcClass f ++ fcTpl3 ++ fcLabel f
    ++ fcTpl4 ++ fcDescPiece f ++ fcTpl5 ++ joinSep ['\n'] (fcDetails f) ++ fcTpl6

/-! ### Injection call sites (`inject-content.py`)

The regex anchors are instantiated to the literal marker text they match
(whitespace classes at their minimal instantiation); groups 1 and 3 are
preserved by backreference in the source, so the markers pass through
injection verbatim. -/

/-- Start marker of the homepage featured-cards anchor. -/
def homeCardsStart : List Char := ("class=\"grid grid-3 reveal\">\n").toList

/-- End marker of the homepage featured-cards anchor. -/
def homeCardsEnd : List Char :=
  ("</div></div></section>\n<!-- Dossiers actifs").toList

/-- Start marker of the homepage formations anchor. -/
def homeFormationsStart : List Char := ("class=\"flex flex-col gap-sm\">\n").toList

/-- End marker of the homepage formations anchor. -/
def homeFormationsEnd : List Char :=
  ("</div></div></div></div></section>\n<!-- CTA Soutenir").toList

/-- Start marker of the formations-page grid anchor. -/
def formationsGridStart : List Char := ("data-filter-container>\n").toList

/-- End marker of the formations-page grid anchor (first regex
alternative). -/
def formationsGridEnd : List Char := ("</div></section>\n<!-- Nos formats").toList

/-- Start marker of the article-page title anchor. -/
def articleTitleStart : List Char := ("<h1 class=\"article-header__title\">").toList

/-- End marker of the article-page title anchor. -/
def articleTitleEnd : List Char := ("</h1>").toList

/-- Start marker of the article-page tag-list anchor. -/
def articleTagsStart : List Char := ("class=\"tag-list\">\n").toList

/-- End marker of the article-page tag-list anchor. -/
def articleTagsEnd : List Char := ("</div>\n</div>\n<!-- Related").toList

/-- Filter of `inject_homepage` for featured articles: a title longer than
ten characters (which also makes it truthy). -/
def goodArticleTitle (a : CardRecord) : Bool :=
  decide (10 < (a.title.getD []).length)

/-- Filter shared by the formation call sites: truthy title, longer than
ten characters, not starting with the year prefix `20`. -/
def goodFormationTitle (f : FormationRecord) : Bool :=
  decide (10 < (f.title.getD []).length) && !(['2', '0'].isPrefixOf (f.title.getD []))

/-- One entry of `homepage.json`'s `featured_articles`. -/
structure FeaturedLink where
  url : List Char
  title : List Char
deriving DecidableEq

/-- The part of `homepage.json` that `inject_homepage` reads. -/
structure HomepageData where
  featured_articles : List FeaturedLink
deriving DecidableEq

/-- Featured-article selection of `inject_homepage`: the first three long
titles, else the first three homepage featured links lifted to records with
empty body and date. -/
def homepageFeatured (articles : List CardRecord) (homepage : Option HomepageData) :
    List CardRecord :=
  let featured := (articles.filter goodArticleTitle).take 3
  if featured = [] then
    match homepage with
    | some h =>
      (h.featured_articles.take 3).map fun fa =>
        { url := some fa.url, title := some fa.title, date := some [],
          rubrique := none, body_text := some [], keywords := none }
    | none => []
  else featured

/-- Core of `inject_homepage` (reading and writing `index.html` factored
out): substitute the featured cards and the formation minis when data is
available.  The boolean is whether the function reported a failed anchor
match to its caller — it never does; the only output is the unconditional
`Updated with N articles` summary. -/
def injectHomepageCore (articles : List CardRecord) (formations : List FormationRecord)
    (homepage : Option HomepageData) (html : List Char) : List Char × Bool :=
  let featured := homepageFeatured articles homepage
  let html1 :=
    if featured = [] then html
    else injectAnchor homeCardsStart homeCardsEnd
      (joinSep ['\n', '\n'] (featured.map makeCardHtml) ++ ['\n']) html
  let realF := (formations.filter goodFormationTitle).take 4
  let html2 :=
    if realF = [] then html1
    else injectAnchor homeFormationsStart homeFormationsEnd
      (joinSep ['\n', '\n'] (realF.map makeFormationMiniHtml) ++ ['\n']) html1
  (html2, false)

/-- Core of `inject_formations` after the file has been read: substitute
the formation cards.  The boolean is whether the function reported a failed
anchor match (`Pattern not matched, no changes`), which it does exactly
when it attempted a substitution that left the document unchanged. -/
def injectFormationsCore (formations : List FormationRecord) (html : List Char) :
    List Char × Bool :=
  let real := (formations.filter goodFormationTitle).take 6
  if real = [] then (html, false)
  else
    let newHtml := injectAnchor formationsGridStart formationsGridEnd
      (joinSep ['\n', '\n'] (real.map makeFormationCardHtml) ++ ['\n']) html
    if newHtml ≠ html then (newHtml, false) else (html, true)

/-! ### File handling of the injector entry points -/

/-- The directory of HTML target documents, by file name. -/
def FileSys : Type := String → Option (List Char)

/-- The uncaught exception `Path.read_text` raises on a missing file. -/
inductive PyError where
  | fileNotFound
deriving DecidableEq

/-- Best-article selection of `inject_article`: the article with the
longest body text among those longer than 200 characters. -/
def pickBestArticle (articles : List CardRecord) : Option CardRecord :=
  articles.foldl
    (fun best a =>
      let body := a.body_text.getD []
      if body ≠ [] ∧ 200 < body.length then
        match best with
        | none => some a
        | some b => if (b.body_text.getD []).length < body.length then some a else some b
      else best)
    none

/-- One tag link of the article tag list. -/
def makeTagHtml (kw : List Char) : List Char :=
  ("              <a href=\"recherche.html?tag=").toList
    ++ escapeHtml ((kw.map Char.toLower).map (fun c => if c = ' ' then '-' else c))
    ++ ("\" class=\"tag\">").toList ++ escapeHtml kw ++ ("</a>").toList

/-- Document transformation of `inject_article` once a best article was
found: substitute the title anchor and the tag-list anchor. -/
def articleTransform (best : CardRecord) (html : List Char) : List Char :=
  let title := escapeHtml (cleanText (best.title.getD []))
  let html1 :=
    if title = [] then html
    else injectAnchor articleTitleStart articleTitleEnd title html
  let kws := best.keywords.getD []
  if kws = [] then html1
  else
    injectAnchor articleTagsStart articleTagsEnd
      (joinSep ['\n'] ((kws.take 10).map makeTagHtml) ++ ['\n']) html1

/-- Entry point `inject_article`: reads `article.html` unconditionally —
there is no existence guard, so a missing file raises. -/
def injectArticleRun (articles : List CardRecord) (fs : FileSys) :
    Except PyError FileSys :=
  match fs "article.html" with
  | none => .error .fileNotFound
  | some html =>
    match pickBestArticle articles with
    | none => .ok fs
    | some best =>
      .ok fun name =>
        if name = "article.html" then some (articleTransform best html) else fs name

/-- Entry point `inject_formations`: a missing `formations.html` is an
explicit skip, and the file is rewritten only when the substitution
changed it. -/
def injectFormationsRun (formations : List FormationRecord) (fs : FileSys) :
    Except PyError FileSys :=
  match fs "formations.html" with
  | none => .ok fs
  | some html =>
    let p := injectFormationsCore formations html
    if p.1 ≠ html then
      .ok fun name => if name = "formations.html" then some p.1 else fs name
    else .ok fs

/-! ### Concrete inputs used by witnesses and counterexamples -/

/-- Document whose top-ranked title locator finds a whitespace-only
element and whose second-ranked locator finds the text `Foo`. -/
def c1doc : String → Option (List Char) := fun s =>
  if s = "h1.titre" then some ("   ".toList)
  else if s = ".titre-article" then some ("Foo".toList)
  else none

/-- Network in which every URL serves the body `hello`. -/
def c2net : String → Option (List Char) := fun _ => some ("hello".toList)

/-- Fresh fetch state: empty cache, epoch last-request marker. -/
def c2st : FetchState :=
  { cache := fun _ => none, lastRequestTime := 0, now := 100 }

/-- Network in which the URL `B` fails and every other URL succeeds. -/
def c6net : String → Option (List Char) := fun u =>
  if u = "B" then none else some ['x']

/-- Fresh fetch state at wall time 1000. -/
def c6st : FetchState :=
  { cache := fun _ => none, lastRequestTime := 0, now := 1000 }

/-- Three cache-missing calls: `A` at once, `B` two seconds later
(failing), `C` immediately afterwards; all requests instantaneous. -/
def c6calls : List (ℚ × ℚ × String) := [(0, 0, "A"), (2, 0, "B"), (0, 0, "C")]

/-- Document containing the single-character markers `S` and `E` once. -/
def c3doc : List Char := "aSxEb".toList

/-- Replacement block that itself contains the end marker `E`. -/
def c3block : List Char := "yEz".toList

/-- Document containing no injection anchor at all. -/
def c4doc : List Char := "<html><body>rien ici</body></html>".toList

/-- Article with a long title, so homepage injection is attempted. -/
def c4art : CardRecord :=
  { url := none, title := some ("Un titre suffisamment long".toList),
    date := none, rubrique := none, body_text := none, keywords := none }

/-- Publication whose escaped title is cut inside the `amp` entity by the
30-character cover truncation: 28 `a` characters, then an ampersand. -/
def c7badPub : PubRecord :=
  { title := some ("aaaaaaaaaaaaaaaaaaaaaaaaaaaa&b".toList),
    ptype := some ("Publication".toList) }

/-- Body text `"Lorem ipsum " * 50` of the spec's concrete scenario. -/
def loremBody : List Char :=
  (List.replicate 50 ("Lorem ipsum ".toList)).flatten

/-- The record of the spec's concrete card scenario. -/
def c8rec : CardRecord :=
  { url := none, title := some ("Accès aux soins des étrangers".toList),
    date := some ("12 mars 2025".toList), rubrique := none,
    body_text := some loremBody, keywords := none }

/-- File system with no files at all. -/
def c9fs : FileSys := fun _ => none

/-- Document in which only the second-ranked title locator finds an
element. -/
def c1wdoc : String → Option (List Char) := fun s =>
  if s = ".titre-article" then some ("Foo".toList) else none

/-- Two cache-missing calls whose network requests both succeed. -/
def c6okCalls : List (ℚ × ℚ × String) := [(0, 0, "A"), (0, 0, "C")]

/-- Escaped-output invariant: no raw angle bracket, every ampersand starts
an entity. -/
def escClean (l : List Char) : Prop :=
  ltgtFree l = true ∧ ampOk l = true

/-! ### Lemmas: prefixes and `findSplit` -/

theorem isPrefixOf_append_self (p l : List Char) : p.isPrefixOf (p ++ l) = true := by
  induction p with
  | nil => simp [List.isPrefixOf]
  | cons c cs ih => simp [List.isPrefixOf, ih]

theorem append_drop_of_isPrefixOf {p : List Char} :
    ∀ {l : List Char}, p.isPrefixOf l = true → p ++ l.drop p.length = l := by
  induction p with
  | nil => intro l _; simp
  | cons c cs ih =>
    intro l h
    cases l with
    | nil => simp [List.isPrefixOf] at h
    | cons x xs =>
      simp only [List.isPrefixOf, Bool.and_eq_true, beq_iff_eq] at h
      obtain ⟨rfl, h2⟩ := h
      simpa [List.length_cons] using ih h2

theorem isPrefixOf_append_indep (p : List Char) :
    ∀ (a b c : List Char), p.length ≤ a.length →
      p.isPrefixOf (a ++ b) = p.isPrefixOf (a ++ c) := by
  induction p with
  | nil => intro a b c _; simp [List.isPrefixOf]
  | cons q qs ih =>
    intro a b c h
    cases a with
    | nil => simp at h
    | cons x xs =>
      simp only [List.cons_append, List.isPrefixOf, List.append_eq]
      rw [ih xs b c (Nat.le_of_succ_le_succ (by simpa using h))]

theorem findSplit_sound {pat : List Char} :
    ∀ {s pre post : List Char}, findSplit pat s = some (pre, post) →
      s = pre ++ pat ++ post := by
  intro s
  induction s with
  | nil =>
    intro pre post h
    simp only [findSplit] at h
    split at h
    · rename_i hemp
      obtain ⟨rfl, rfl⟩ := by simpa using h
      simp [List.isEmpty_iff.mp hemp]
    · exact absurd h (by simp)
  | cons c rest ih =>
    intro pre post h
    simp only [findSplit] at h
    split at h
    · rename_i hpre
      obtain ⟨rfl, rfl⟩ := by simpa using h
      simpa using (append_drop_of_isPrefixOf hpre).symm
    · rename_i hpre
      cases hfs : findSplit pat rest with
      | none => rw [hfs] at h; exact absurd h (by simp)
      | some pr =>
        obtain ⟨pre', post'⟩ := pr
        rw [hfs] at h
        obtain ⟨rfl, rfl⟩ := by simpa using h
        simpa using ih hfs

theorem findSplit_nil_pat (X : List Char) : findSplit [] X = some ([], X) := by
  cases X with
  | nil => rfl
  | cons c r => simp [findSplit, List.isPrefixOf]

theorem findSplit_again {pat : List Char} :
    ∀ {s pre post : List Char}, findSplit pat s = some (pre, post) →
      ∀ X, findSplit pat (pre ++ pat ++ X) = some (pre, X) := by
  intro s
  induction s with
  | nil =>
    intro pre post h X
    simp only [findSplit] at h
    split at h
    · rename_i hemp
      obtain ⟨rfl, rfl⟩ := by simpa using h
      simpa [List.isEmpty_iff.mp hemp] using findSplit_nil_pat X
    · exact absurd h (by simp)
  | cons c rest ih =>
    intro pre post h X
    simp only [findSplit] at h
    split at h
    · rename_i hpre
      obtain ⟨rfl, rfl⟩ := by simpa using h
      cases hp : pat with
      | nil => simpa using findSplit_nil_pat X
      | cons q qt =>
        subst hp
        simp only [List.nil_append, List.cons_append, findSplit,
          isPrefixOf_append_self ((q :: qt) : List Char) X]
        simp [List.drop_left' (by simp : ((q :: qt) : List Char).length = qt.length + 1)]
    · rename_i hpre
      cases hfs : findSplit pat rest with
      | none => rw [hfs] at h; exact absurd h (by simp)
      | some pr =>
        obtain ⟨pre', post'⟩ := pr
        rw [hfs] at h
        obtain ⟨rfl, rfl⟩ := by simpa using h
        have hrest : rest = pre' ++ pat ++ post' := findSplit_sound hfs
        have hpre' : pat.isPrefixOf (c :: rest) = false := by
          simp only [Bool.not_eq_true] at hpre
          exact hpre
        have hcond : pat.isPrefixOf ((c :: pre') ++ pat ++ X) = false := by
          have hlen : pat.length ≤ ((c :: pre') ++ pat).length := by
            simp [List.length_append]
            omega
          calc pat.isPrefixOf ((c :: pre') ++ pat ++ X)
              = pat.isPrefixOf (((c :: pre') ++ pat) ++ X) := by
                simp [List.append_assoc]
            _ = pat.isPrefixOf (((c :: pre') ++ pat) ++ post') :=
                isPrefixOf_append_indep pat _ X post' hlen
            _ = pat.isPrefixOf (c :: rest) := by
                rw [hrest]; simp [List.append_assoc]
            _ = false := hpre'
        have hcond' : ¬pat.isPrefixOf (c :: (pre' ++ pat ++ X)) = true := by
          simp only [List.cons_append, List.append_assoc] at hcond ⊢
          simp [hcond]
      -- unfold the goal one step at the head character `c`
        show findSplit pat (c :: (pre' ++ pat ++ X)) = some (c :: pre', X)
        simp only [findSplit]
        rw [if_neg hcond', ih hfs X]

/-! ### Lemmas: anchor injection -/

theorem findSplit_nil_of_ne {S : List Char} (hS : S ≠ []) : findSplit S [] = none := by
  cases S with
  | nil => exact absurd rfl hS
  | cons a as => rfl

theorem length_post_lt {S E s pre rest1 mid post : List Char} (hS : S ≠ [])
    (hfs : findSplit S s = some (pre, rest1))
    (hfe : findSplit E rest1 = some (mid, post)) : post.length < s.length := by
  have h1 : s = pre ++ S ++ rest1 := findSplit_sound hfs
  have h2 : rest1 = mid ++ E ++ post := findSplit_sound hfe
  have hS1 : 1 ≤ S.length := List.length_pos.mpr hS
  have : s.length = pre.length + S.length + (mid.length + E.length + post.length) := by
    rw [h1, h2]; simp [List.length_append]; omega
  omega

theorem injectAux_fuel {S E block : List Char} (hS : S ≠ []) :
    ∀ (f1 f2 : Nat) (s : List Char), s.length < f1 → s.length < f2 →
      injectAux S E block f1 s = injectAux S E block f2 s := by
  intro f1
  induction f1 with
  | zero => intro f2 s h1 _; exact absurd h1 (Nat.not_lt_zero _)
  | succ n ih =>
    intro f2 s h1 h2
    cases f2 with
    | zero => exact absurd h2 (Nat.not_lt_zero _)
    | succ m =>
      cases hfs : findSplit S s with
      | none => simp only [injectAux, hfs]
      | some pr =>
        obtain ⟨pre, rest1⟩ := pr
        cases hfe : findSplit E rest1 with
        | none => simp only [injectAux, hfs, hfe]
        | some pr2 =>
          obtain ⟨mid, post⟩ := pr2
          have hlt := length_post_lt hS hfs hfe
          have hn : post.length < n := by omega
          have hm : post.length < m := by omega
          simp only [injectAux, hfs, hfe]
          rw [ih m post hn hm]

theorem injectAnchor_step {S E block doc pre rest1 mid post : List Char} (hS : S ≠ [])
    (hfs : findSplit S doc = some (pre, rest1))
    (hfe : findSplit E rest1 = some (mid, post)) :
    injectAnchor S E block doc =
      pre ++ S ++ block ++ E ++ injectAnchor S E block post := by
  have hlt := length_post_lt hS hfs hfe
  conv_lhs => rw [injectAnchor]
  simp only [injectAux, hfs, hfe]
  rw [injectAux_fuel hS doc.length (post.length + 1) post (by omega) (by omega)]
  rfl

theorem injectAnchor_no_start {S E block doc : List Char}
    (h : findSplit S doc = none) : injectAnchor S E block doc = doc := by
  unfold injectAnchor
  simp only [injectAux, h]

theorem injectAnchor_no_end {S E block doc pre rest1 : List Char}
    (hfs : findSplit S doc = some (pre, rest1))
    (hfe : findSplit E rest1 = none) : injectAnchor S E block doc = doc := by
  unfold injectAnchor
  simp only [injectAux, hfs, hfe]

theorem injectAnchor_no_match {S E block doc : List Char}
    (h : anchorMatches S E doc = false) : injectAnchor S E block doc = doc := by
  unfold anchorMatches at h
  cases hfs : findSplit S doc with
  | none => exact injectAnchor_no_start hfs
  | some pr =>
    obtain ⟨pre, rest1⟩ := pr
    rw [hfs] at h
    have h' : (findSplit E rest1).isSome = false := by simpa using h
    cases hfe : findSplit E rest1 with
    | none => exact injectAnchor_no_end hfs hfe
    | some pr2 => rw [hfe] at h'; simp at h'

theorem injectAnchor_idem_aux {S E block : List Char} (hS : S ≠ [])
    (hB : findSplit E (block ++ E) = some (block, [])) :
    ∀ (n : Nat) (doc : List Char), doc.length ≤ n →
      injectAnchor S E block (injectAnchor S E block doc) =
        injectAnchor S E block doc := by
  intro n
  induction n with
  | zero =>
    intro doc h
    have hdoc : doc = [] := List.eq_nil_of_length_eq_zero (Nat.le_zero.mp h)
    subst hdoc
    rw [injectAnchor_no_start (findSplit_nil_of_ne hS)]
    exact injectAnchor_no_start (findSplit_nil_of_ne hS)
  | succ n ih =>
    intro doc hd
    cases hfs : findSplit S doc with
    | none =>
      rw [injectAnchor_no_start hfs]
      exact injectAnchor_no_start hfs
    | some pr =>
      obtain ⟨pre, rest1⟩ := pr
      cases hfe : findSplit E rest1 with
      | none =>
        rw [injectAnchor_no_end hfs hfe]
        exact injectAnchor_no_end hfs hfe
      | some pr2 =>
        obtain ⟨mid, post⟩ := pr2
        have hlt := length_post_lt hS hfs hfe
        have hpost : post.length ≤ n := by omega
        have hstep := @injectAnchor_step S E block doc pre rest1 mid post hS hfs hfe
        have hS2 := findSplit_again hfs (block ++ E ++ injectAnchor S E block post)
        have hE2 := findSplit_again hB (injectAnchor S E block post)
        rw [hstep]
        rw [show pre ++ S ++ block ++ E ++ injectAnchor S E block post
              = pre ++ S ++ (block ++ E ++ injectAnchor S E block post) by
            simp [List.append_assoc]]
        rw [injectAnchor_step hS hS2 hE2]
        rw [ih post hpost]
        simp [List.append_assoc]

/-! ### Lemmas: escaping -/

theorem ltgtFree_append (a b : List Char) :
    ltgtFree (a ++ b) = (ltgtFree a && ltgtFree b) := by
  simp [ltgtFree]

theorem ltgtFree_escChar (c : Char) : ltgtFree (escChar c) = true := by
  by_cases h1 : c = '&'
  · subst h1; decide
  by_cases h2 : c = '<'
  · subst h2; decide
  by_cases h3 : c = '>'
  · subst h3; decide
  by_cases h4 : c = '"'
  · subst h4; decide
  by_cases h5 : c = '\''
  · subst h5; decide
  simp only [escChar, h1, h2, h3, h4, h5, if_false]
  simp [ltgtFree, h2, h3]

theorem ltgtFree_escapeHtml (s : List Char) : ltgtFree (escapeHtml s) = true := by
  induction s with
  | nil => rfl
  | cons c rest ih =>
    show ltgtFree (escChar c ++ escapeHtml rest) = true
    rw [ltgtFree_append, ltgtFree_escChar c, ih]
    rfl

theorem ltgtFree_take {l : List Char} (h : ltgtFree l = true) (n : Nat) :
    ltgtFree (l.take n) = true := by
  simp only [ltgtFree, List.all_eq_true] at h ⊢
  intro c hc
  exact h c (List.take_subset n l hc)

theorem ampOk_cons_ne {c : Char} (h : c ≠ '&') (l : List Char) :
    ampOk (c :: l) = ampOk l := by
  simp [ampOk, h]

theorem ampOk_chunk {l : List Char} (hl : ampOk l = true) (c : Char) :
    ampOk (escChar c ++ l) = true := by
  by_cases h1 : c = '&'
  · subst h1
    have hpre : entityTails.any (fun e => e.isPrefixOf ('a' :: 'm' :: 'p' :: ';' :: l)) = true :=
      List.any_eq_true.mpr
        ⟨['a', 'm', 'p', ';'], by simp [entityTails],
          isPrefixOf_append_self ['a', 'm', 'p', ';'] l⟩
    show ampOk ('&' :: 'a' :: 'm' :: 'p' :: ';' :: l) = true
    simp [ampOk, hpre, hl]
  by_cases h2 : c = '<'
  · subst h2
    have hpre : entityTails.any (fun e => e.isPrefixOf ('l' :: 't' :: ';' :: l)) = true :=
      List.any_eq_true.mpr
        ⟨['l', 't', ';'], by simp [entityTails], isPrefixOf_append_self ['l', 't', ';'] l⟩
    show ampOk ('&' :: 'l' :: 't' :: ';' :: l) = true
    simp [ampOk, hpre, hl]
  by_cases h3 : c = '>'
  · subst h3
    have hpre : entityTails.any (fun e => e.isPrefixOf ('g' :: 't' :: ';' :: l)) = true :=
      List.any_eq_true.mpr
        ⟨['g', 't', ';'], by simp [entityTails], isPrefixOf_append_self ['g', 't', ';'] l⟩
    show ampOk ('&' :: 'g' :: 't' :: ';' :: l) = true
    simp [ampOk, hpre, hl]
  by_cases h4 : c = '"'
  · subst h4
    have hpre : entityTails.any (fun e => e.isPrefixOf ('q' :: 'u' :: 'o' :: 't' :: ';' :: l)) = true :=
      List.any_eq_true.mpr
        ⟨['q', 'u', 'o', 't', ';'], by simp [entityTails],
          isPrefixOf_append_self ['q', 'u', 'o', 't', ';'] l⟩
    show ampOk ('&' :: 'q' :: 'u' :: 'o' :: 't' :: ';' :: l) = true
    simp [ampOk, hpre, hl]
  by_cases h5 : c = '\''
  · subst h5
    have hpre : entityTails.any (fun e => e.isPrefixOf ('#' :: 'x' :: '2' :: '7' :: ';' :: l)) = true :=
      List.any_eq_true.mpr
        ⟨['#', 'x', '2', '7', ';'], by simp [entityTails],
          isPrefixOf_append_self ['#', 'x', '2', '7', ';'] l⟩
    show ampOk ('&' :: '#' :: 'x' :: '2' :: '7' :: ';' :: l) = true
    simp [ampOk, hpre, hl]
  have hc : escChar c = [c] := by simp [escChar, h1, h2, h3, h4, h5]
  rw [hc]
  show ampOk (c :: l) = true
  rw [ampOk_cons_ne h1 l]
  exact hl

theorem ampOk_escapeHtml (s : List Char) : ampOk (escapeHtml s) = true := by
  induction s with
  | nil => rfl
  | cons c rest ih => exact ampOk_chunk ih c

theorem escClean_escapeHtml (s : List Char) : escClean (escapeHtml s) :=
  ⟨ltgtFree_escapeHtml s, ampOk_escapeHtml s⟩

/-! ### Lemmas: rate limiting -/

theorem fetch_miss_success {net : String → Option (List Char)} {dur : ℚ} {st : FetchState}
    {url : String} {body : List Char}
    (hcache : st.cache url = none) (hnet : net url = some body) :
    fetch net dur st url =
      { text? := some body,
        callStart? := some (st.now +
          (if st.now - st.lastRequestTime < RATE_LIMIT then
            RATE_LIMIT - (st.now - st.lastRequestTime) else 0)),
        sleptFor :=
          if st.now - st.lastRequestTime < RATE_LIMIT then
            RATE_LIMIT - (st.now - st.lastRequestTime) else 0,
        state :=
          { cache := fun u => if u = url then some body else st.cache u,
            lastRequestTime := st.now +
              (if st.now - st.lastRequestTime < RATE_LIMIT then
                RATE_LIMIT - (st.now - st.lastRequestTime) else 0) + dur,
            now := st.now +
              (if st.now - st.lastRequestTime < RATE_LIMIT then
                RATE_LIMIT - (st.now - st.lastRequestTime) else 0) + dur } } := by
  simp [fetch, hcache, hnet]

theorem rateLimit_lower_bound (st : FetchState) :
    st.lastRequestTime + RATE_LIMIT ≤
      st.now + (if st.now - st.lastRequestTime < RATE_LIMIT then
        RATE_LIMIT - (st.now - st.lastRequestTime) else 0) := by
  by_cases h : st.now - st.lastRequestTime < RATE_LIMIT
  · rw [if_pos h]; linarith
  · rw [if_neg h]; have := not_lt.mp h; linarith

theorem runFetches_spec (net : String → Option (List Char)) :
    ∀ (calls : List (ℚ × ℚ × String)) (st : FetchState),
      (∀ c ∈ calls, 0 ≤ c.2.1 ∧ st.cache c.2.2 = none ∧ (net c.2.2).isSome = true) →
      (calls.map (fun c => c.2.2)).Nodup →
      ((runFetches net calls st).2.length = calls.length ∧
        (runFetches net calls st).2.Chain' (fun a b => a + RATE_LIMIT ≤ b) ∧
        ∀ s, (runFetches net calls st).2.head? = some s →
          st.lastRequestTime + RATE_LIMIT ≤ s) := by
  intro calls
  induction calls with
  | nil =>
    intro st _ _
    refine ⟨rfl, ?_, ?_⟩ <;> simp [runFetches]
  | cons c rest ih =>
    obtain ⟨δ, dur, url⟩ := c
    intro st hc hnd
    obtain ⟨hdur, hcache, hnet⟩ := hc _ (List.mem_cons_self _ _)
    obtain ⟨body, hbody⟩ := Option.isSome_iff_exists.mp hnet
    have hcache' : ({ st with now := st.now + δ } : FetchState).cache url = none := hcache
    have hfetch :=
      @fetch_miss_success net dur { st with now := st.now + δ } url body hcache' hbody
    -- the state after this call
    have hurl : url ∉ rest.map (fun c => c.2.2) := by
      exact (List.nodup_cons.mp (hnd : (url :: rest.map (fun c => c.2.2)).Nodup)).1
    have hrest : ∀ c' ∈ rest,
        0 ≤ c'.2.1 ∧
          ((fetch net dur { st with now := st.now + δ } url).state).cache c'.2.2 = none ∧
          (net c'.2.2).isSome = true := by
      intro c' hc'
      obtain ⟨h1, h2, h3⟩ := hc _ (List.mem_cons_of_mem _ hc')
      refine ⟨h1, ?_, h3⟩
      rw [hfetch]
      have hne : c'.2.2 ≠ url := by
        intro heq
        exact hurl (heq ▸ List.mem_map_of_mem (fun c => c.2.2) hc')
      simp [hne, h2]
    have hnd' : (rest.map (fun c => c.2.2)).Nodup :=
      (List.nodup_cons.mp (hnd : (url :: rest.map (fun c => c.2.2)).Nodup)).2
    obtain ⟨ihlen, ihch, ihhead⟩ :=
      ih ((fetch net dur { st with now := st.now + δ } url).state) hrest hnd'
    have hcall : (fetch net dur { st with now := st.now + δ } url).callStart? =
        some (st.now + δ +
          (if st.now + δ - st.lastRequestTime < RATE_LIMIT then
            RATE_LIMIT - (st.now + δ - st.lastRequestTime) else 0)) := by
      rw [hfetch]
    have hlast : (fetch net dur { st with now := st.now + δ } url).state.lastRequestTime =
        st.now + δ +
          (if st.now + δ - st.lastRequestTime < RATE_LIMIT then
            RATE_LIMIT - (st.now + δ - st.lastRequestTime) else 0) + dur := by
      rw [hfetch]
    have hgoal1 : (runFetches net ((δ, dur, url) :: rest) st).2 =
        (st.now + δ +
          (if st.now + δ - st.lastRequestTime < RATE_LIMIT then
            RATE_LIMIT - (st.now + δ - st.lastRequestTime) else 0)) ::
          (runFetches net rest ((fetch net dur { st with now := st.now + δ } url).state)).2 := by
      simp only [runFetches, hcall, Option.toList_some, List.singleton_append]
    rw [hgoal1]
    refine ⟨by simpa using ihlen, ?_, ?_⟩
    · refine List.chain'_cons'.mpr ⟨?_, ihch⟩
      intro y hy
      have := ihhead y (Option.mem_def.mp hy)
      rw [hlast] at this
      linarith
    · intro s hs
      have hseq : s = st.now + δ +
          (if st.now + δ - st.lastRequestTime < RATE_LIMIT then
            RATE_LIMIT - (st.now + δ - st.lastRequestTime) else 0) := by
        simpa using hs.symm
      subst hseq
      have := rateLimit_lower_bound { st with now := st.now + δ }
      simpa using this

theorem chainTotal (r : ℚ) :
    ∀ (l : List ℚ), l.Chain' (fun a b => a + r ≤ b) →
      ∀ h : l ≠ [], l.head h + ((l.length - 1 : ℕ) : ℚ) * r ≤ l.getLast h := by
  intro l
  induction l with
  | nil => intro _ h; exact absurd rfl h
  | cons a t ih =>
    intro hch h
    cases t with
    | nil => simp
    | cons b t2 =>
      have h1 : a + r ≤ b := (List.chain'_cons.mp hch).1
      have h2 := ih (List.chain'_cons.mp hch).2 (by simp)
      rw [List.getLast_cons (by simp : (b :: t2 : List ℚ) ≠ [])]
      simp only [List.head_cons, List.length_cons] at h2 ⊢
      push_cast at h2 ⊢
      linarith

/-! ### Lemmas: deduplication -/

theorem beqSymmUrl (x y : List Char) : (x == y) = (y == x) := by
  apply Bool.eq_iff_iff.mpr
  simp only [beq_iff_eq]
  exact eq_comm

theorem dedupAux_spec :
    ∀ (items : List RawArticle) (acc : List (List Char × RawArticle)),
      (dedupAux acc items).map Prod.snd =
        acc.map Prod.snd ++
          keepFirstByUrl (items.filter (fun a => !(acc.any (fun kv => kv.1 == a.url)))) := by
  intro items
  induction items with
  | nil => intro acc; simp [dedupAux, keepFirstByUrl]
  | cons a rest ih =>
    intro acc
    by_cases h : acc.any (fun kv => kv.1 == a.url) = true
    · rw [show dedupAux acc (a :: rest) = dedupAux acc rest by simp [dedupAux, h]]
      rw [ih acc]
      congr 2
      simp [List.filter_cons, h]
    · have h' : acc.any (fun kv => kv.1 == a.url) = false := by
        cases hx : acc.any (fun kv => kv.1 == a.url) with
        | false => rfl
        | true => exact absurd hx h
      rw [show dedupAux acc (a :: rest) = dedupAux (acc ++ [(a.url, a)]) rest by
        simp [dedupAux, h']]
      rw [ih]
      rw [List.filter_cons]
      rw [if_pos (by simp [h'])]
      simp only [List.map_append, List.map_cons, List.map_nil]
      rw [show keepFirstByUrl (a :: rest.filter (fun b => !(acc.any (fun kv => kv.1 == b.url))))
            = a :: keepFirstByUrl ((rest.filter (fun b => !(acc.any (fun kv => kv.1 == b.url)))).filter
                (fun b => b.url != a.url)) by
        simp [keepFirstByUrl]]
      rw [List.filter_filter]
      have hpt : ∀ b ∈ rest,
          (!((acc ++ [(a.url, a)]).any (fun kv => kv.1 == b.url))) =
            ((b.url != a.url) && !(acc.any (fun kv => kv.1 == b.url))) := by
        intro b _
        simp only [List.any_append, List.any_cons, List.any_nil, Bool.or_false,
          Bool.not_or, bne]
        rw [beqSymmUrl a.url b.url]
        exact Bool.and_comm _ _
      rw [List.filter_congr hpt]
      simp [List.append_assoc]

theorem dedupByUrl_eq_keepFirst (items : List RawArticle) :
    dedupByUrl items = keepFirstByUrl items := by
  unfold dedupByUrl
  rw [dedupAux_spec items []]
  simp

theorem keepFirstByUrl_sublist_aux :
    ∀ (n : Nat) (l : List RawArticle), l.length ≤ n → (keepFirstByUrl l).Sublist l := by
  intro n
  induction n with
  | zero =>
    intro l h
    have hl : l = [] := List.eq_nil_of_length_eq_zero (Nat.le_zero.mp h)
    subst hl
    simp [keepFirstByUrl]
  | succ n ih =>
    intro l h
    cases l with
    | nil => simp [keepFirstByUrl]
    | cons a rest =>
      rw [show keepFirstByUrl (a :: rest)
            = a :: keepFirstByUrl (rest.filter (fun b => b.url != a.url)) by
        simp [keepFirstByUrl]]
      refine List.Sublist.cons₂ a ?_
      have h1 : (rest.filter (fun b => b.url != a.url)).length ≤ n :=
        le_trans (List.length_filter_le _ _) (by simpa using Nat.le_of_succ_le_succ h)
      exact (ih _ h1).trans (List.filter_sublist rest)

/-! ### Claim C1: ordered locator fallback -/

set_option maxRecDepth 100000 in
/-- C1 counterexample: the extraction loop of `scrape_single_article`
breaks on the first locator that finds an element even when its cleaned
text is empty.  Here the top-ranked locator finds a whitespace-only
element, the second-ranked one holds `Foo`, and extraction returns the
empty string instead of `Foo` — refuting that extraction returns the value
of the highest-ranked locator that yields a non-empty match. -/
theorem c1_counterexample :
    c1doc "h1.titre" = some ("   ".toList) ∧ cleanText ("   ".toList) = [] ∧
    c1doc ".titre-article" = some ("Foo".toList) ∧
    cleanText ("Foo".toList) = "Foo".toList ∧
    tryLocators c1doc titleSelectors = [] ∧
    tryLocators c1doc titleSelectors ≠ "Foo".toList := by
  refine ⟨rfl, by decide, rfl, by decide, by decide, by decide⟩

/-- C1 amended: extraction returns the cleaned text of the highest-ranked
locator that locates an element — even when that text is empty, in which
case lower-ranked locators are never consulted; in particular when every
higher-ranked locator locates nothing, the first locator that does locate
an element supplies the value. -/
theorem c1_amended :
    ∀ (doc : String → Option (List Char)) (pre rest : List String)
      (sel : String) (t : List Char),
      (∀ s ∈ pre, doc s = none) → doc sel = some t →
      tryLocators doc (pre ++ sel :: rest) = cleanText t := by
  intro doc pre
  induction pre with
  | nil =>
    intro rest sel t _ hsel
    simp [tryLocators, hsel]
  | cons p ps ih =>
    intro rest sel t hpre hsel
    have hp : doc p = none := hpre p (List.mem_cons_self p ps)
    simp only [List.cons_append, tryLocators, hp]
    exact ih rest sel t (fun s hs => hpre s (List.mem_cons_of_mem p hs)) hsel

/-- C1 witness: title extraction on a document where only the
second-ranked selector locates an element returns that selector's value. -/
theorem c1_witness :
    ((∀ s ∈ (["h1.titre"] : List String), c1wdoc s = none) ∧
      c1wdoc ".titre-article" = some ("Foo".toList)) ∧
    tryLocators c1wdoc titleSelectors = cleanText ("Foo".toList) :=
  ⟨⟨by decide, by decide⟩,
    c1_amended c1wdoc ["h1.titre"] ["h1.entry-title", "#contenu h1", "h1"]
      ".titre-article" ("Foo".toList) (by decide) (by decide)⟩

/-! ### Claim C2: idempotent cache -/

/-- C2: after a successful cache-missing fetch, a second `fetch` of the
same URL returns the byte-identical body from the cache, issues no
outbound network call (`callStart? = none`), sleeps for no rate-limit
delay (`sleptFor = 0`) and leaves the state unchanged — whatever the
network does meanwhile. -/
theorem c2_cached_fetch (net : String → Option (List Char)) (dur : ℚ)
    (st : FetchState) (url : String) (body : List Char)
    (hmiss : st.cache url = none) (hnet : net url = some body) :
    (fetch net dur st url).text? = some body ∧
    (fetch net dur st url).callStart?.isSome = true ∧
    ∀ (net' : String → Option (List Char)) (dur' : ℚ),
      fetch net' dur' (fetch net dur st url).state url =
        { text? := some body, callStart? := none, sleptFor := 0,
          state := (fetch net dur st url).state } := by
  have hf := @fetch_miss_success net dur st url body hmiss hnet
  refine ⟨by simp [hf], by simp [hf], ?_⟩
  intro net' dur'
  rw [hf]
  simp [fetch]

/-- C2 witness at a concrete network, state and URL. -/
theorem c2_witness :
    (c2st.cache "u" = none ∧ c2net "u" = some ("hello".toList)) ∧
    ((fetch c2net 0 c2st "u").text? = some ("hello".toList) ∧
      (fetch c2net 0 c2st "u").callStart?.isSome = true ∧
      ∀ (net' : String → Option (List Char)) (dur' : ℚ),
        fetch net' dur' (fetch c2net 0 c2st "u").state "u" =
          { text? := some ("hello".toList), callStart? := none, sleptFor := 0,
            state := (fetch c2net 0 c2st "u").state }) :=
  ⟨⟨rfl, rfl⟩, c2_cached_fetch c2net 0 c2st "u" ("hello".toList) rfl rfl⟩

/-! ### Claim C3: injection idempotence -/

set_option maxRecDepth 100000 in
/-- C3 counterexample: with a replacement block that contains the end
marker, a document containing the anchor markers is not a fixed point of a
second injection — `re.sub` finds the end marker inside the previously
injected block.  This refutes idempotence for arbitrary replacement
blocks. -/
theorem c3_counterexample :
    anchorMatches ['S'] ['E'] c3doc = true ∧
    injectAnchor ['S'] ['E'] c3block (injectAnchor ['S'] ['E'] c3block c3doc) ≠
      injectAnchor ['S'] ['E'] c3block c3doc := by
  exact ⟨by decide, by decide⟩

/-- C3 amended: for a nonempty start marker and a replacement block whose
concatenation with the end marker first matches the end marker only at its
very end (i.e. the block does not contain the end marker, overlaps
included), injection is idempotent on every document; moreover whenever
the anchor matches, both markers survive injection byte-identically:
the document splits as `pre ++ S ++ mid ++ E ++ post` and the result is
`pre ++ S ++ block ++ E ++ (rest of the scan)`. -/
theorem c3_amended {S E block : List Char} (hS : S ≠ [])
    (hB : findSplit E (block ++ E) = some (block, [])) (doc : List Char) :
    injectAnchor S E block (injectAnchor S E block doc) =
      injectAnchor S E block doc ∧
    (anchorMatches S E doc = true →
      ∃ pre mid post, doc = pre ++ S ++ mid ++ E ++ post ∧
        injectAnchor S E block doc =
          pre ++ S ++ block ++ E ++ injectAnchor S E block post) := by
  refine ⟨injectAnchor_idem_aux hS hB doc.length doc (Nat.le_refl _), ?_⟩
  intro hm
  unfold anchorMatches at hm
  cases hfs : findSplit S doc with
  | none => rw [hfs] at hm; simp at hm
  | some pr =>
    obtain ⟨pre, rest1⟩ := pr
    rw [hfs] at hm
    have hm' : (findSplit E rest1).isSome = true := by simpa using hm
    obtain ⟨pr2, hfe⟩ := Option.isSome_iff_exists.mp hm'
    obtain ⟨mid, post⟩ := pr2
    refine ⟨pre, mid, post, ?_, injectAnchor_step hS hfs hfe⟩
    rw [findSplit_sound hfs, findSplit_sound hfe]
    simp [List.append_assoc]

/-- C3 witness: idempotence at concrete markers, a block free of the end
marker, and a concrete document containing the anchor. -/
theorem c3_witness :
    ((['S'] : List Char) ≠ [] ∧
      findSplit ['E'] (['y'] ++ ['E']) = some (['y'], [])) ∧
    injectAnchor ['S'] ['E'] ['y'] (injectAnchor ['S'] ['E'] ['y'] c3doc) =
      injectAnchor ['S'] ['E'] ['y'] c3doc :=
  ⟨⟨by decide, by decide⟩, (c3_amended (by decide) (by decide) c3doc).1⟩

/-! ### Claim C4: missing anchor is a no-op -/

set_option maxRecDepth 1000000 in
/-- C4 counterexample: on a document without the homepage anchors,
`inject_homepage` leaves the document unchanged but reports nothing about
the failed match (its only output is the unconditional update summary), so
the caller is not informed of the non-match. -/
theorem c4_counterexample :
    anchorMatches homeCardsStart homeCardsEnd c4doc = false ∧
    homepageFeatured [c4art] none ≠ [] ∧
    injectHomepageCore [c4art] [] none c4doc = (c4doc, false) := by
  exact ⟨by decide, by decide, by decide⟩

/-- C4 amended: when the anchor pattern does not match, the anchor
substitution returns the document unchanged — a no-op, never an error;
`inject_formations` additionally informs the caller (it reports
`Pattern not matched` exactly in that situation, whenever it attempted an
injection), while `inject_homepage` writes the unchanged document back
silently. -/
theorem c4_amended :
    (∀ (S E block doc : List Char), anchorMatches S E doc = false →
      injectAnchor S E block doc = doc) ∧
    (∀ (formations : List FormationRecord) (html : List Char),
      anchorMatches formationsGridStart formationsGridEnd html = false →
      (injectFormationsCore formations html).1 = html ∧
        ((formations.filter goodFormationTitle).take 6 ≠ [] →
          (injectFormationsCore formations html).2 = true)) ∧
    (∀ (articles : List CardRecord) (formations : List FormationRecord)
      (homepage : Option HomepageData) (html : List Char),
      anchorMatches homeCardsStart homeCardsEnd html = false →
      anchorMatches homeFormationsStart homeFormationsEnd html = false →
      injectHomepageCore articles formations homepage html = (html, false)) := by
  refine ⟨fun S E block doc h => injectAnchor_no_match h, ?_, ?_⟩
  · intro formations html h
    by_cases hreal : (formations.filter goodFormationTitle).take 6 = []
    · exact ⟨by simp [injectFormationsCore, hreal], fun hne => absurd hreal hne⟩
    · have hinj := @injectAnchor_no_match formationsGridStart formationsGridEnd
        (joinSep ['\n', '\n']
          (List.take 6 ((formations.filter goodFormationTitle).map makeFormationCardHtml))
            ++ ['\n']) html h
      exact ⟨by simp [injectFormationsCore, hreal, hinj],
        fun _ => by simp [injectFormationsCore, hreal, hinj]⟩
  · intro arts fors hp html h1 h2
    have k1 : injectAnchor homeCardsStart homeCardsEnd
        (joinSep ['\n', '\n'] ((homepageFeatured arts hp).map makeCardHtml) ++ ['\n'])
          html = html := injectAnchor_no_match h1
    have k2 : injectAnchor homeFormationsStart homeFormationsEnd
        (joinSep ['\n', '\n']
          (List.take 4 ((fors.filter goodFormationTitle).map makeFormationMiniHtml))
            ++ ['\n']) html = html := injectAnchor_no_match h2
    simp [injectHomepageCore, k1, k2]

set_option maxRecDepth 1000000 in
/-- C4 witness: the no-op behaviour at a concrete anchorless document. -/
theorem c4_witness :
    (anchorMatches homeCardsStart homeCardsEnd c4doc = false ∧
      anchorMatches homeFormationsStart homeFormationsEnd c4doc = false ∧
      anchorMatches formationsGridStart formationsGridEnd c4doc = false) ∧
    injectHomepageCore [] [] none c4doc = (c4doc, false) ∧
    (injectFormationsCore [] c4doc).1 = c4doc :=
  ⟨⟨by decide, by decide, by decide⟩,
    c4_amended.2.2 [] [] none c4doc (by decide) (by decide),
    (c4_amended.2.1 [] c4doc (by decide)).1⟩

/-! ### Claim C5: deduplication keeps the first occurrence -/

set_option maxRecDepth 100000 in
/-- C5: the dedup pass of `scrape_articles` equals the
first-occurrence-wins specification, its output is a sublist of its input
(production order preserved), and the spec's concrete two-item scenario
builds to the one-element collection carrying the first title `Foo`. -/
theorem c5_dedup_first_occurrence :
    (∀ (items : List RawArticle),
      dedupByUrl items = keepFirstByUrl items ∧
        (dedupByUrl items).Sublist items) ∧
    dedupByUrl
        [{ url := "https://x/a".toList, title := "Foo".toList },
         { url := "https://x/a".toList, title := "Bar".toList }] =
      [{ url := "https://x/a".toList, title := "Foo".toList }] := by
  constructor
  · intro items
    have h := dedupByUrl_eq_keepFirst items
    exact ⟨h, h ▸ keepFirstByUrl_sublist_aux items.length items (Nat.le_refl _)⟩
  · decide

/-! ### Claim C6: rate-limit lower bound -/

set_option maxRecDepth 1000000 in
/-- C6 counterexample: three consecutive cache-missing fetch calls whose
middle network request fails.  Each call issues an outbound network call
(`A` at 1000, `B` at 1002, `C` again at 1002), because the failing path of
`fetch` does not advance `last_request_time`; the final two outbound calls
start at the same instant, and the total elapsed wall time between the
first and last outbound call is 2 seconds, strictly less than
(N−1)·RATE_LIMIT = 4. -/
theorem c6_counterexample :
    (∀ c ∈ c6calls, c6st.cache c.2.2 = none) ∧
    (runFetches c6net c6calls c6st).2 = [1000, 1002, 1002] ∧
    ¬ (runFetches c6net c6calls c6st).2.Chain' (fun a b => a + RATE_LIMIT ≤ b) ∧
    (1002 : ℚ) - 1000 < (((3 : ℕ) - 1 : ℕ) : ℚ) * RATE_LIMIT := by
  have hA : ("A" : String) ≠ "B" := by decide
  have hB : ("B" : String) ≠ "A" := by decide
  have hC : ("C" : String) ≠ "A" := by decide
  have hD : ("C" : String) ≠ "B" := by decide
  have hrun : (runFetches c6net c6calls c6st).2 = [1000, 1002, 1002] := by
    norm_num [runFetches, fetch, c6net, c6calls, c6st, RATE_LIMIT, hA, hB, hC, hD]
  refine ⟨fun c _ => rfl, hrun, ?_, ?_⟩
  · rw [hrun]
    norm_num [List.chain'_cons, List.chain'_singleton, RATE_LIMIT]
  · push_cast
    norm_num [RATE_LIMIT]

/-- C6 amended: across consecutive cache-missing fetch calls whose network
requests all succeed (distinct URLs, nonnegative request durations), every
outbound network call is issued, consecutive call start times are at least
RATE_LIMIT apart, and the final start time exceeds the first by at least
(N−1)·RATE_LIMIT. -/
theorem c6_amended (net : String → Option (List Char)) (st : FetchState)
    (calls : List (ℚ × ℚ × String))
    (h1 : ∀ c ∈ calls, 0 ≤ c.2.1 ∧ st.cache c.2.2 = none ∧ (net c.2.2).isSome = true)
    (h2 : (calls.map (fun c => c.2.2)).Nodup) :
    (runFetches net calls st).2.length = calls.length ∧
    (runFetches net calls st).2.Chain' (fun a b => a + RATE_LIMIT ≤ b) ∧
    ∀ h : (runFetches net calls st).2 ≠ [],
      (runFetches net calls st).2.head h +
          (((runFetches net calls st).2.length - 1 : ℕ) : ℚ) * RATE_LIMIT ≤
        (runFetches net calls st).2.getLast h := by
  obtain ⟨hlen, hch, _⟩ := runFetches_spec net calls st h1 h2
  exact ⟨hlen, hch, fun h => chainTotal RATE_LIMIT _ hch h⟩

/-- C6 witness: two successful cache-missing calls at a concrete network
and state. -/
theorem c6_witness :
    ((∀ c ∈ c6okCalls,
        0 ≤ c.2.1 ∧ c6st.cache c.2.2 = none ∧ (c6net c.2.2).isSome = true) ∧
      (c6okCalls.map (fun c => c.2.2)).Nodup) ∧
    ((runFetches c6net c6okCalls c6st).2.length = c6okCalls.length ∧
      (runFetches c6net c6okCalls c6st).2.Chain' (fun a b => a + RATE_LIMIT ≤ b) ∧
      ∀ h : (runFetches c6net c6okCalls c6st).2 ≠ [],
        (runFetches c6net c6okCalls c6st).2.head h +
            (((runFetches c6net c6okCalls c6st).2.length - 1 : ℕ) : ℚ) * RATE_LIMIT ≤
          (runFetches c6net c6okCalls c6st).2.getLast h) :=
  ⟨⟨by norm_num [c6okCalls, c6st, c6net]; exact ⟨by decide, by decide⟩, by decide⟩,
    c6_amended c6net c6st c6okCalls
      (by norm_num [c6okCalls, c6st, c6net]; exact ⟨by decide, by decide⟩) (by decide)⟩

/-! ### Claim C7: escaping of user-sourced text -/

set_option maxRecDepth 1000000 in
/-- C7 counterexample: `make_pub_card_html` escapes the title first and
truncates the escaped string to 30 characters for the cover placeholder
afterwards; a title whose ampersand sits at position 28 gets its `amp`
entity cut to a bare `&a`, so the generated fragment contains the
user-sourced ampersand raw rather than escaped. -/
theorem c7_counterexample :
    '&' ∈ ("aaaaaaaaaaaaaaaaaaaaaaaaaaaa&b".toList) ∧
    pubCoverPiece c7badPub = ("aaaaaaaaaaaaaaaaaaaaaaaaaaaa&a".toList) ∧
    ampOk (pubCoverPiece c7badPub) = false ∧
    ampOk (makePubCardHtml c7badPub) = false := by
  exact ⟨by decide, by decide, by decide, by decide⟩

/-- C7 amended: every user-sourced text piece interpolated by
`make_card_html`, `make_formation_mini_html` and
`make_formation_card_html` is escape-clean (no raw `<` or `>`, every `&`
opening an entity), because those generators truncate before escaping; in
`make_pub_card_html` the full title and the type are escape-clean and the
truncated cover placeholder still contains no raw `<` or `>`, but its
ampersands are not guaranteed to remain escaped. -/
theorem c7_amended (a : CardRecord) (f : FormationRecord) (p : PubRecord) :
    escClean (cardTitlePiece a) ∧ escClean (cardDatePiece a) ∧
    escClean (cardBodyPiece a) ∧ escClean (cardRubriquePiece a) ∧
    escClean (miniTitlePiece f) ∧ escClean (miniDayPiece f) ∧
    escClean (miniMonthPiece f) ∧ escClean (miniDurationPiece f) ∧
    escClean (miniPricePiece f) ∧
    escClean (fcTitlePiece f) ∧ escClean (fcDescPiece f) ∧
    escClean (fcDatePiece f) ∧ escClean (fcDurationPiece f) ∧
    escClean (fcPricePiece f) ∧
    escClean (pubTitlePiece p) ∧ escClean (pubTypePiece p) ∧
    ltgtFree (pubCoverPiece p) = true := by
  refine ⟨escClean_escapeHtml _, escClean_escapeHtml _, escClean_escapeHtml _,
    escClean_escapeHtml _, escClean_escapeHtml _, ?_, ?_,
    escClean_escapeHtml _, escClean_escapeHtml _,
    escClean_escapeHtml _, escClean_escapeHtml _, escClean_escapeHtml _,
    escClean_escapeHtml _, escClean_escapeHtml _,
    escClean_escapeHtml _, escClean_escapeHtml _,
    ltgtFree_take (ltgtFree_escapeHtml _) 30⟩
  · unfold miniDayPiece
    split
    · exact ⟨by decide, by decide⟩
    · exact escClean_escapeHtml _
  · unfold miniMonthPiece
    split
    · exact ⟨rfl, rfl⟩
    · exact escClean_escapeHtml _

/-! ### Claim C8: the concrete card scenario -/

set_option maxRecDepth 1000000 in
/-- C8: on the record with title `Accès aux soins des étrangers`, date
`12 mars 2025` and body `"Lorem ipsum " * 50`, the card's text piece is
exactly 180 characters and equal to the hard character cut of the
normalized body, the title appears HTML-escaped in the fragment, a
`<time>` element wrapping the date is present, and with an empty date no
`<time>` element appears. -/
theorem c8_concrete_scenario :
    (cardBodyPiece c8rec).length = 180 ∧
    cardBodyPiece c8rec = (cleanText loremBody).take 180 ∧
    cardTitlePiece c8rec = escapeHtml ("Accès aux soins des étrangers".toList) ∧
    occursIn (escapeHtml ("Accès aux soins des étrangers".toList)) (makeCardHtml c8rec) = true ∧
    occursIn ("<time>12 mars 2025</time>".toList) (makeCardHtml c8rec) = true ∧
    occursIn ("<time>".toList) (makeCardHtml { c8rec with date := some [] }) = false := by
  exact ⟨by decide, by decide, by decide, by decide, by decide, by decide⟩

/-! ### Claim C9: missing target file -/

/-- C9 counterexample: `inject_article` reads `article.html` without an
existence guard; on a file system without that file it raises
`FileNotFoundError` instead of skipping, aborting the run. -/
theorem c9_counterexample :
    c9fs "article.html" = none ∧
    injectArticleRun [] c9fs = Except.error PyError.fileNotFound :=
  ⟨rfl, rfl⟩

/-- C9 amended: the guarded injector entry points (here
`inject_formations`) skip a missing target file without error and leave
the file system unchanged, while `inject_article` reads its target
unconditionally and raises `FileNotFoundError` when it is absent. -/
theorem c9_amended :
    (∀ (formations : List FormationRecord) (fs : FileSys),
      fs "formations.html" = none → injectFormationsRun formations fs = .ok fs) ∧
    (∀ (articles : List CardRecord) (fs : FileSys),
      fs "article.html" = none →
        injectArticleRun articles fs = .error .fileNotFound) := by
  constructor
  · intro formations fs h
    simp [injectFormationsRun, h]
  · intro articles fs h
    simp [injectArticleRun, h]

/-- C9 witness: both behaviours on the empty file system. -/
theorem c9_witness :
    (c9fs "formations.html" = none ∧ c9fs "article.html" = none) ∧
    injectFormationsRun [] c9fs = .ok c9fs ∧
    injectArticleRun [] c9fs = .error .fileNotFound :=
  ⟨⟨rfl, rfl⟩, c9_amended.1 [] c9fs rfl, c9_amended.2 [] c9fs rfl⟩

/-! ### Claim C10: the card fragment ignores the record's URL -/

set_option maxRecDepth 1000000 in
/-- C10: `make_card_html` computes the same fragment for any two records
differing only in `url` (the escaped `url` local is never interpolated),
and the fragment's link target is the literal `article.html`. -/
theorem c10_link_constant (a : CardRecord) (u : Option (List Char)) :
    makeCardHtml { a with url := u } = makeCardHtml a ∧
    ∃ pre post, makeCardHtml a = pre ++ ("<a href=\"article.html\">").toList ++ post := by
  constructor
  · rfl
  · refine ⟨("          <article class=\"card\">\n            <div class=\"card__body\">\n              <span class=\"card__overline\">Article</span>\n              <h3 class=\"card__title\">\n                ").toList,
      cardTitlePiece a ++ cardTpl2 ++ cardBodyPiece a ++ cardTpl3 ++ cardDateHtml a
        ++ cardTpl4 ++ cardRubriqueHtml a ++ cardTpl5, ?_⟩
    rw [makeCardHtml]
    rw [show cardTpl1 =
        ("          <article class=\"card\">\n            <div class=\"card__body\">\n              <span class=\"card__overline\">Article</span>\n              <h3 class=\"card__title\">\n                ").toList
          ++ ("<a href=\"article.html\">").toList from by decide]
    simp [List.append_assoc]
